import Mathlib

set_option maxHeartbeats 1000000

/-! Verification of the Notion tree flattener
    (`src/personal_knowledge_assistant/notion/content_extractor.py`).

    The flattener operates on JSON-like dictionaries returned by the
    Notion API.  We embed those values as the inductive type `J` (lists
    and dicts are encoded as cons chains so the type is a plain, non
    nested inductive), give Python-faithful semantics to the operations
    the source uses (`d[k]`, `d.get(k, default)`, `k in d`, truthiness,
    `str(...)` interpolation, `or`, `+`, `.replace`, `.endswith`), and
    translate `_process_elements`, `_extract_text`, `_gather_links`,
    `_standardize_url` and the pagination loop of
    `_retrieve_page_elements` into total Lean functions.  Fallible
    Python operations return `Except PErr`; unbounded recursion through
    the fetcher is made total with an explicit fuel parameter. -/

/-- JSON-like Python values: the payloads Notion blocks are made of.
    A Python list is a `cons`/`nil` chain; a dict an `ocons`/`onil` chain
    (dict keys are unique in Python, so first-binding-wins lookup over
    the chain is faithful). -/
inductive J : Type where
  | null : J
  | bool : Bool → J
  | num : Int → J
  | str : String → J
  | nil : J
  | cons : J → J → J
  | onil : J
  | ocons : String → J → J → J
deriving DecidableEq

/-- Build a `J` list value from a Lean list. -/
def jarr (l : List J) : J := l.foldr J.cons J.nil

/-- Build a `J` dict value from a Lean association list. -/
def jobj (l : List (String × J)) : J :=
  l.foldr (fun kv t => J.ocons kv.1 kv.2 t) J.onil

/-- Python runtime errors the extractor code can raise, plus `fuel`
    marking exhaustion of the explicit recursion bound of the embedding. -/
inductive PErr : Type where
  | keyError : String → PErr
  | typeError : PErr
  | attributeError : PErr
  | fuel : PErr
deriving DecidableEq

/-- Python `s.endswith(t)`. -/
def strEndsWith (s t : String) : Bool :=
  decide (t.data = s.data.drop (s.data.length - t.data.length))

/-- Characters Python `str.strip()` removes. -/
def isPyWs (c : Char) : Bool :=
  c = ' ' ∨ c = '\t' ∨ c = '\n' ∨ c = '\r' ∨ c = Char.ofNat 11 ∨ c = Char.ofNat 12

/-- Python `s.strip()`: drop leading and trailing whitespace. -/
def pyStrip (s : String) : String :=
  String.mk (((s.data.dropWhile isPyWs).reverse.dropWhile isPyWs).reverse)

/-- Helper for `pySplitNl`, accumulating the current line reversed. -/
def splitNlAux : List Char → List Char → List String
  | [], acc => [String.mk acc.reverse]
  | c :: cs, acc =>
    if c = '\n' then String.mk acc.reverse :: splitNlAux cs []
    else splitNlAux cs (c :: acc)

/-- Python `s.split("\n")`. -/
def pySplitNl (s : String) : List String := splitNlAux s.data []

/-- Python `sep.join(parts)`. -/
def pyJoin (sep : String) : List String → String
  | [] => ""
  | [x] => x
  | x :: xs => x ++ sep ++ pyJoin sep xs

/-- Fueled core of `pyStrReplace` (the fuel is at least the input
    length, so it is never exhausted). -/
def listReplaceF (patD repD : List Char) : Nat → List Char → List Char
  | 0, s => s
  | _, [] => []
  | n + 1, c :: cs =>
    if patD ≠ [] ∧ (c :: cs).take patD.length = patD then
      repD ++ listReplaceF patD repD n ((c :: cs).drop patD.length)
    else
      c :: listReplaceF patD repD n cs

/-- Python `s.replace(pat, rep)` (nonempty pattern). -/
def pyStrReplace (s pat rep : String) : String :=
  String.mk (listReplaceF pat.data rep.data (s.data.length + 1) s.data)

/-- Fueled substring scan for `strContains`. -/
def hasInfixF (k : List Char) : Nat → List Char → Bool
  | 0, _ => false
  | n + 1, l =>
    if l.take k.length = k then true
    else
      match l with
      | [] => false
      | _ :: t => hasInfixF k n t

/-- Python `k in s` for strings. -/
def strContains (s k : String) : Bool := hasInfixF k.data (s.data.length + 1) s.data

/-- Is this value a Python dict? -/
def J.isDict : J → Bool
  | .onil => true
  | .ocons _ _ _ => true
  | _ => false

/-- Dict lookup (first binding wins, as in a Python dict). -/
def lookupJ : J → String → Option J
  | .ocons k v t, key => if k = key then some v else lookupJ t key
  | _, _ => none

/-- Python `o.get(k, default)`: defined on dicts, `AttributeError` otherwise. -/
def J.get (o : J) (k : String) (d : J) : Except PErr J :=
  if o.isDict then .ok ((lookupJ o k).getD d) else .error .attributeError

/-- Python subscript `o[k]`: `KeyError` when the key is missing,
    `TypeError` when `o` is not a dict. -/
def J.idx (o : J) (k : String) : Except PErr J :=
  if o.isDict then
    match lookupJ o k with
    | some v => .ok v
    | none => .error (.keyError k)
  else .error .typeError

/-- Python truthiness. -/
def J.truthy : J → Bool
  | .null => false
  | .bool b => b
  | .num n => n != 0
  | .str s => s ≠ ""
  | .nil => false
  | .cons _ _ => true
  | .onil => false
  | .ocons _ _ _ => true

/-- Elements of a `J` list value. -/
def J.toItems : J → List J
  | .cons h t => h :: t.toItems
  | _ => []

/-- Keys of a `J` dict value, as Python string values. -/
def J.dictKeys : J → List J
  | .ocons k _ t => J.str k :: t.dictKeys
  | _ => []

/-- Entries of a `J` dict value. -/
def J.dictEntries : J → List (String × J)
  | .ocons k v t => (k, v) :: t.dictEntries
  | _ => []

/-- Membership of a value in a `J` list value. -/
def containsJ : J → J → Bool
  | .cons h t, x => h = x || containsJ t x
  | _, _ => false

/-- Python `k in o` for a string key. -/
def pyIn (k : String) (o : J) : Except PErr Bool :=
  match o with
  | .onil => .ok false
  | .ocons a b t => .ok (lookupJ (.ocons a b t) k).isSome
  | .nil => .ok false
  | .cons h t => .ok (containsJ (.cons h t) (J.str k))
  | .str s => .ok (strContains s k)
  | _ => .error .typeError

/-- A single-quote character, for Python `repr` of strings. -/
def pyQuote : String := String.singleton (Char.ofNat 39)

/-- Python `repr`, fuel-bounded over the chain depth to stay
    structurally computable (never exhausted on real payloads). -/
def pyReprF : Nat → J → String
  | _, .null => "None"
  | _, .bool true => "True"
  | _, .bool false => "False"
  | _, .num n => toString n
  | _, .str s => pyQuote ++ s ++ pyQuote
  | _, .nil => "[]"
  | _, .onil => "\x7b\x7d"
  | 0, _ => "..."
  | n + 1, .cons h t => "[" ++ String.intercalate ", " ((h :: t.toItems).map (pyReprF n)) ++ "]"
  | n + 1, .ocons k v t =>
    "\x7b" ++
      String.intercalate ", "
        (((k, v) :: t.dictEntries).map
          (fun kv => pyQuote ++ kv.1 ++ pyQuote ++ ": " ++ pyReprF n kv.2)) ++
    "\x7d"

/-- Python `str(...)` as used by f-string interpolation. -/
def J.pyStr : J → String
  | .null => "None"
  | .bool true => "True"
  | .bool false => "False"
  | .num n => toString n
  | .str s => s
  | v => pyReprF 1000 v

/-- Python `a + s` where `s` is a string literal: `TypeError` unless `a`
    is a string. -/
def pyAddStr (a : J) (b : String) : Except PErr String :=
  match a with
  | .str s => .ok (s ++ b)
  | _ => .error .typeError

/-- Python `a.replace(pat, rep)`: `AttributeError` unless `a` is a string. -/
def pyReplace (a : J) (pat rep : String) : Except PErr String :=
  match a with
  | .str s => .ok (pyStrReplace s pat rep)
  | _ => .error .attributeError

/-- Python iteration `for x in o`: lists yield their elements, dicts
    their keys, strings their one-character substrings; otherwise
    `TypeError`. -/
def pyIter : J → Except PErr (List J)
  | .nil => .ok []
  | .cons h t => .ok (h :: t.toItems)
  | .onil => .ok []
  | .ocons k v t => .ok ((J.ocons k v t).dictKeys)
  | .str s => .ok (s.toList.map (fun c => J.str (String.singleton c)))
  | _ => .error .typeError

/-- `_standardize_url`: append a trailing slash when absent.  Python
    calls `.endswith` on the value, so a non-string raises
    `AttributeError`. -/
def standardizeUrl (url : J) : Except PErr J :=
  match url with
  | .str s => .ok (.str (if strEndsWith s "/" then s else s ++ "/"))
  | _ => .error .attributeError

/-- Loop body of `_extract_text` over the run list. -/
def extractTextLoop : List J → Except PErr String
  | [] => .ok ""
  | e :: rest => do
    let href ← e.get "href" J.null
    let piece ←
      if href.truthy then do
        let pt ← e.get "plain_text" (J.str "")
        let hf ← e.get "href" (J.str "")
        (.ok ("[" ++ pt.pyStr ++ "](" ++ hf.pyStr ++ ")") : Except PErr String)
      else do
        let pt ← e.get "plain_text" (J.str "")
        pyAddStr pt ""
    let restS ← extractTextLoop rest
    .ok (piece ++ restS)

/-- `_extract_text`: readable text of a rich-text run sequence; a run
    with a truthy `href` renders as a bracketed link, else as its plain
    text (`content += element.get("plain_text", "")`, which requires a
    string). -/
def extractText (textElements : J) : Except PErr String := do
  let elems ← pyIter textElements
  extractTextLoop elems

/-- Loop body of `_gather_links` over the run list. -/
def gatherLinksLoop : List J → Except PErr (List J)
  | [] => .ok []
  | e :: rest => do
    let href ← e.get "href" J.null
    let link ←
      if href.truthy then
        e.idx "href"
      else do
        let ann ← e.get "annotations" J.onil
        let b ← pyIn "url" ann
        if b then do
          let a ← e.idx "annotations"
          a.idx "url"
        else
          (.ok J.null : Except PErr J)
    let here ←
      if link.truthy then do
        let su ← standardizeUrl link
        (.ok [su] : Except PErr (List J))
      else
        .ok []
    let restL ← gatherLinksLoop rest
    .ok (here ++ restL)

/-- `_gather_links`: collect the standardized links of a rich-text run
    sequence, preferring a truthy `href` over an annotation-level
    `url`. -/
def gatherLinks (textElements : J) : Except PErr (List J) := do
  let elems ← pyIter textElements
  gatherLinksLoop elems

/-- First-seen deduplication with an explicit seen accumulator: the
    Python idiom `[x for x in child_urls if not (x in seen or
    seen.add(x))]`. -/
def dedupFirstAux {α : Type} [DecidableEq α] (seen : List α) : List α → List α
  | [] => []
  | x :: xs =>
    if x ∈ seen then dedupFirstAux seen xs
    else x :: dedupFirstAux (x :: seen) xs

/-- Remove duplicates keeping the first occurrence of each value. -/
def dedupFirst {α : Type} [DecidableEq α] (l : List α) : List α :=
  dedupFirstAux [] l

/-- Index of the first occurrence of a value in a list (length of the
    list when absent). -/
def firstIdx {α : Type} [DecidableEq α] : List α → α → Nat
  | [], _ => 0
  | x :: xs, a => if x = a then 0 else firstIdx xs a + 1

/-- The Block-Tree Fetcher as seen by `_process_elements`:
    `_retrieve_page_elements` is total (it absorbs every error into an
    empty list), so it is abstracted as a plain function from a block id
    to the ordered list of child blocks. -/
def Fetcher : Type := J → List J

/-- The trailing `content.strip()` / first-seen dedup applied by every
    return of `_process_elements`. -/
def postP (r : String × List J) : String × List J :=
  (pyStrip r.1, dedupFirst r.2)

/-- Render one `|`-joined table row from extracted cell texts. -/
def tableRowLine (texts : List String) : String :=
  "| " ++ pyJoin " | " texts ++ " |" ++ "\n"

/-- Extract the text of one table cell: `cell.get("rich_text", [])`
    fed to `_extract_text`. -/
def tableCellText (cell : J) : Except PErr String := do
  let rt ← cell.get "rich_text" J.nil
  extractText rt

/-- Indent every line of `s` with `pad`, joining with newlines: the
    `"\n".join(pad + ln for ln in s.split("\n"))` idiom of the source. -/
def indentLines (pad s : String) : String :=
  pyJoin "\n" ((pySplitNl s).map (fun ln => pad ++ ln))

/-- One iteration of the `_process_elements` loop: the type-specific
    dispatch on one element followed by the generic `has_children`
    recursion.  `recur` is the recursive flatten — the source's
    `self._process_elements(blocks, d)` including its trailing
    `content.strip()` and link dedup — abstracted so that this dispatch
    is not itself recursive. -/
def procOne (recur : List J → Nat → Except PErr (String × List J))
    (f : Fetcher) (e : J) (depth : Nat) : Except PErr (String × List J) :=
  e.get "type" J.null >>= fun et =>
  e.get "id" J.null >>= fun eid =>
  (match et with
    | J.str s =>
      if s = "heading_1" ∨ s = "heading_2" ∨ s = "heading_3" then
        e.idx s >>= fun payload =>
        payload.get "rich_text" J.nil >>= fun rt =>
        extractText rt >>= fun txt =>
        gatherLinks rt >>= fun ls =>
        .ok ("# " ++ txt ++ "\n\n", ls)
      else if s = "paragraph" ∨ s = "quote" then
        e.idx s >>= fun payload =>
        payload.get "rich_text" J.nil >>= fun rt =>
        extractText rt >>= fun txt =>
        gatherLinks rt >>= fun ls =>
        .ok (txt ++ "\n", ls)
      else if s = "bulleted_list_item" ∨ s = "numbered_list_item" ∨ s = "toggle" then
        let marker := if s ≠ "numbered_list_item" then "-" else "1."
        e.idx s >>= fun payload =>
        payload.get "rich_text" J.nil >>= fun rt =>
        extractText rt >>= fun txt =>
        gatherLinks rt >>= fun ls =>
        (if s = "toggle" then
          e.get "has_children" J.null >>= fun hc =>
          (.ok hc.truthy : Except PErr Bool)
        else
          .ok false) >>= fun tog =>
        if tog then
          recur (f eid) (depth + 1) >>= fun res =>
          .ok (marker ++ " " ++ txt ++ "\n" ++
                "\n" ++ indentLines "    " res.1 ++ "\n", ls ++ res.2)
        else
          .ok (marker ++ " " ++ txt ++ "\n", ls)
      else if s = "to_do" then
        e.idx "to_do" >>= fun payload =>
        payload.get "rich_text" J.nil >>= fun rt =>
        extractText rt >>= fun txt =>
        gatherLinks rt >>= fun ls =>
        .ok ("[] " ++ txt ++ "\n", ls)
      else if s = "pdf" then
        e.idx "pdf" >>= fun pdf =>
        pdf.get "external" J.onil >>= fun ext =>
        ext.get "url" J.null >>= fun eurl =>
        (if eurl.truthy then
          (.ok eurl : Except PErr J)
        else
          pdf.get "file" J.onil >>= fun fl =>
          fl.get "url" J.null) >>= fun url =>
        .ok ("[PDF](" ++ url.pyStr ++ ")\n", [url])
      else if s = "code" then
        e.idx "code" >>= fun payload =>
        payload.get "rich_text" J.nil >>= fun rt =>
        extractText rt >>= fun txt =>
        gatherLinks rt >>= fun ls =>
        .ok ("```" ++ "\n" ++ txt ++ "\n" ++ "```" ++ "\n", ls)
      else if s = "embed" then
        e.idx "embed" >>= fun em =>
        em.get "url" (J.str "") >>= fun url =>
        .ok ("[Embed](" ++ url.pyStr ++ ")\n", [url])
      else if s = "image" then
        e.idx "image" >>= fun img =>
        img.get "external" J.onil >>= fun ext =>
        ext.get "url" J.null >>= fun eurl =>
        (if eurl.truthy then
          (.ok eurl : Except PErr J)
        else
          img.get "file" J.onil >>= fun fl =>
          fl.get "url" (J.str "No URL")) >>= fun iurl =>
        img.get "caption" J.nil >>= fun cap =>
        extractText cap >>= fun capS =>
        .ok ("![" ++ (if capS ≠ "" then capS else "Image") ++
              "](" ++ iurl.pyStr ++ ")\n", [])
      else if s = "link_preview" then
        e.get "link_preview" J.onil >>= fun lp =>
        lp.get "url" (J.str "") >>= fun url =>
        standardizeUrl url >>= fun su =>
        .ok ("[Link](" ++ url.pyStr ++ ")\n", [su])
      else if s = "table_row" then
        e.idx "table_row" >>= fun tr =>
        tr.get "cells" J.nil >>= fun cells =>
        pyIter cells >>= fun cellsL =>
        cellsL.mapM extractText >>= fun texts =>
        .ok (tableRowLine texts, [])
      else if s = "table" then
        e.idx "table" >>= fun tb =>
        tb.get "rows" J.nil >>= fun rows =>
        (match rows with
          | J.nil => (.ok "" : Except PErr String)
          | J.cons r0 rs =>
            pyIter r0 >>= fun cells0 =>
            cells0.mapM tableCellText >>= fun headers =>
            (rs.toItems).mapM (fun row =>
              pyIter row >>= fun cs =>
              cs.mapM tableCellText >>= fun texts =>
              (.ok (tableRowLine texts) : Except PErr String)) >>= fun dataRows =>
            .ok (tableRowLine headers ++
                  tableRowLine (headers.map (fun _ => "---")) ++
                  String.join dataRows)
          | other => if other.truthy then .error .typeError else .ok "") >>= fun body =>
        .ok (body ++ "\n", [])
      else if s = "column_list" then
        e.get "has_children" J.null >>= fun hc =>
        if hc.truthy then
          recur (f eid) depth >>= fun res =>
          .ok (res.1 ++ "\n", res.2)
        else
          .ok ("", [])
      else if s = "column" then
        e.get "has_children" J.null >>= fun hc =>
        if hc.truthy then
          recur (f eid) depth >>= fun res =>
          .ok (res.1 ++ "\n", res.2)
        else
          .ok ("", [])
      else if s = "child_database" then
        e.idx "child_database" >>= fun cd =>
        cd.get "title" (J.str "") >>= fun title =>
        .ok ("**Database:** " ++ title.pyStr ++ "\n", [])
      else if s = "divider" then
        .ok ("---\n\n", [])
      else if s = "child_page" ∧ depth < 3 then
        e.idx "id" >>= fun childId =>
        e.get "child_page" J.onil >>= fun cp =>
        cp.get "title" (J.str "Untitled") >>= fun title =>
        pyIn "id" e >>= fun hasId =>
        (if hasId then
          e.idx "id" >>= fun idv =>
          pyReplace idv "-" "" >>= fun s2 =>
          (.ok [J.str ("https://www.notion.so/" ++ s2)] : Except PErr (List J))
        else
          .ok []) >>= fun urls1 =>
        recur (f childId) (depth + 1) >>= fun res =>
        .ok ("\n\n<subpage>\n# " ++ title.pyStr ++ "\n\n" ++
              res.1 ++ "\n</subpage>\n\n", urls1 ++ res.2)
      else if s = "synced_block" then
        e.get "has_children" J.null >>= fun hc =>
        if hc.truthy then
          recur (f eid) (depth + 1) >>= fun res =>
          .ok ("[Synced block start]\n" ++ res.1 ++
                "\n[Synced block end]\n\n", res.2)
        else
          .ok ("[Synced block start]\n", [])
      else if s = "callout" then
        e.idx "callout" >>= fun co =>
        co.get "icon" J.onil >>= fun icon =>
        icon.get "type" J.null >>= fun itype =>
        (if itype = J.str "emoji" then
          icon.get "emoji" J.null >>= fun em =>
          pyAddStr em " "
        else
          (.ok "" : Except PErr String)) >>= fun pfx =>
        co.get "rich_text" J.nil >>= fun rt =>
        extractText rt >>= fun txt =>
        .ok ("> " ++ pfx ++ txt ++ "\n\n", [])
      else
        .ok ("", [])
    | _ => .ok ("", [])) >>= fun head =>
  (if et = J.str "child_page" then
    (.ok false : Except PErr Bool)
  else
    pyIn "has_children" e >>= fun b =>
    if b then
      e.idx "has_children" >>= fun v =>
      (.ok v.truthy : Except PErr Bool)
    else
      .ok false) >>= fun gcond =>
  (if gcond then
    recur (f eid) (depth + 1) >>= fun res =>
    (.ok (indentLines "\t" res.1 ++ "\n\n", res.2) : Except PErr (String × List J))
  else
    .ok ("", [])) >>= fun nestedPart =>
  .ok (head.1 ++ nestedPart.1, head.2 ++ nestedPart.2)

/-- Loop of `_process_elements`: processes the element list in order,
    concatenating the per-element text and urls.  Recursive expansion
    through the fetcher is bounded by `fuel` (exhaustion yields
    `PErr.fuel`); each nested call goes through `postP`, i.e. through
    the trailing `content.strip()` and link dedup that every recursive
    `_process_elements` call performs in the source. -/
def procE (f : Fetcher) : Nat → List J → Nat → Except PErr (String × List J)
  | _, [], _ => .ok ("", [])
  | 0, _ :: _, _ => .error .fuel
  | fuel + 1, e :: rest, depth =>
    procOne (fun es2 d2 => Except.map postP (procE f fuel es2 d2)) f e depth >>= fun hn =>
    procE f fuel rest depth >>= fun restPart =>
    .ok (hn.1 ++ restPart.1, hn.2 ++ restPart.2)

/-- `_process_elements`: the loop body followed by the final
    `content.strip()` and first-seen link dedup. -/
def processElements (f : Fetcher) (fuel : Nat) (es : List J) (depth : Nat) :
    Except PErr (String × List J) :=
  Except.map postP (procE f fuel es depth)

/-- `_retrieve_page_elements`' view of one upstream HTTP round-trip:
    either a parsed page of results together with the `has_more` flag,
    or any `requests` / parsing error raised during that iteration. -/
inductive FetchResp : Type where
  | err : FetchResp
  | page : List J → Bool → FetchResp

/-- The pagination loop of `_retrieve_page_elements`: keep requesting
    (the oracle gives the response of the i-th request) while
    `has_more`, accumulating results.  `none` means the fuel ran out
    before the loop finished; `some (.error ())` that some iteration
    raised. -/
def retrieveLoop (oracle : Nat → FetchResp) : Nat → Nat → List J → Option (Except Unit (List J))
  | 0, _, _ => none
  | n + 1, i, acc =>
    match oracle i with
    | .err => some (.error ())
    | .page rs more =>
      if more then retrieveLoop oracle n (i + 1) (acc ++ rs)
      else some (.ok (acc ++ rs))

/-- `_retrieve_page_elements`: the loop wrapped in `try/except` — any
    raised error is logged and collapsed to the empty list. -/
def retrievePageElements (oracle : Nat → FetchResp) (fuel : Nat) : Option (List J) :=
  (retrieveLoop oracle fuel 0 []).map
    (fun r => match r with | .ok l => l | .error _ => [])

/-- Count of (possibly overlapping) occurrences of `k` in `s`. -/
def countInfixF (k : List Char) : Nat → List Char → Nat
  | 0, _ => 0
  | n + 1, l =>
    (if l.take k.length = k ∧ k ≠ [] then 1 else 0) +
      (match l with
       | [] => 0
       | _ :: t => countInfixF k n t)

/-- Number of occurrences of the substring `k` in `s`. -/
def strCount (s k : String) : Nat := countInfixF k.data (s.data.length + 1) s.data

/-! ### Basic computation lemmas -/

theorem exceptBind_ok {α β : Type} (a : α) (k : α → Except PErr β) :
    (Except.ok a >>= k : Except PErr β) = k a := rfl

theorem exceptBind_error {α β : Type} (er : PErr) (k : α → Except PErr β) :
    (Except.error er >>= k : Except PErr β) = .error er := rfl

theorem get_of_isDict (e : J) (k : String) (d : J) (h : e.isDict = true) :
    e.get k d = .ok ((lookupJ e k).getD d) := by
  simp [J.get, h]

theorem pyIn_of_isDict (e : J) (k : String) (h : e.isDict = true) :
    pyIn k e = .ok (lookupJ e k).isSome := by
  cases e <;> simp_all [pyIn, J.isDict, lookupJ]

theorem strAppend_empty (s : String) : s ++ "" = s := by
  cases s with
  | mk data => show String.mk (data ++ []) = String.mk data
               rw [List.append_nil]

theorem procE_nil (f : Fetcher) (fuel depth : Nat) :
    procE f fuel [] depth = .ok ("", []) := by
  cases fuel <;> rfl

/-- The one-step unfolding of the `_process_elements` loop on a
    nonempty list, with the recursive flatten written as
    `processElements` at the decremented fuel. -/
theorem procE_cons (f : Fetcher) (fuel : Nat) (e : J) (rest : List J) (depth : Nat) :
    procE f (fuel + 1) (e :: rest) depth =
      (procOne (fun es2 d2 => processElements f fuel es2 d2) f e depth) >>= fun hn =>
      (procE f fuel rest depth) >>= fun restPart =>
      .ok (hn.1 ++ restPart.1, hn.2 ++ restPart.2) := rfl

/-! ### First-seen deduplication -/

theorem mem_dedupFirstAux {α : Type} [DecidableEq α] (a : α) :
    ∀ (l seen : List α), a ∈ dedupFirstAux seen l ↔ a ∈ l ∧ a ∉ seen := by
  intro l
  induction l with
  | nil => intro seen; simp [dedupFirstAux]
  | cons x xs ih =>
    intro seen
    by_cases hx : x ∈ seen
    · rw [dedupFirstAux, if_pos hx, ih seen]
      simp only [List.mem_cons]
      constructor
      · exact fun h => ⟨Or.inr h.1, h.2⟩
      · rintro ⟨h1 | h1, h2⟩
        · exact absurd (by rw [h1]; exact hx) h2
        · exact ⟨h1, h2⟩
    · rw [dedupFirstAux, if_neg hx]
      simp only [List.mem_cons, ih (x :: seen)]
      constructor
      · rintro (h1 | ⟨h1, h2⟩)
        · exact ⟨Or.inl h1, by rw [h1]; exact hx⟩
        · exact ⟨Or.inr h1, fun hc => h2 (Or.inr hc)⟩
      · rintro ⟨h1 | h1, h2⟩
        · exact Or.inl h1
        · rcases eq_or_ne a x with h3 | h3
          · exact Or.inl h3
          · exact Or.inr ⟨h1, fun hc => hc.elim (fun h4 => h3 h4) (fun h4 => h2 h4)⟩

theorem nodup_dedupFirstAux {α : Type} [DecidableEq α] :
    ∀ (l seen : List α), (dedupFirstAux seen l).Nodup := by
  intro l
  induction l with
  | nil => intro seen; simp [dedupFirstAux]
  | cons x xs ih =>
    intro seen
    by_cases hx : x ∈ seen
    · rw [dedupFirstAux, if_pos hx]; exact ih seen
    · rw [dedupFirstAux, if_neg hx]
      refine List.nodup_cons.mpr ⟨?_, ih (x :: seen)⟩
      intro hc
      rcases (mem_dedupFirstAux x xs (x :: seen)).mp hc with ⟨_, hns⟩
      exact hns (List.mem_cons_self x seen)

/-- Transfer a `Pairwise` relation along a membership-aware implication. -/
theorem pairwiseImpMem {α : Type} {R S : α → α → Prop} :
    ∀ {l : List α}, (∀ a b, a ∈ l → b ∈ l → R a b → S a b) →
      l.Pairwise R → l.Pairwise S := by
  intro l
  induction l with
  | nil => intro _ _; exact List.Pairwise.nil
  | cons y ys ih =>
    intro h hp
    rcases List.pairwise_cons.mp hp with ⟨h1, h2⟩
    refine List.Pairwise.cons ?_ (ih ?_ h2)
    · intro b hb
      exact h y b (List.mem_cons_self _ _) (List.mem_cons_of_mem _ hb) (h1 b hb)
    · intro a b ha hb hr
      exact h a b (List.mem_cons_of_mem _ ha) (List.mem_cons_of_mem _ hb) hr

theorem firstIdx_cons_self {α : Type} [DecidableEq α] (x : α) (xs : List α) :
    firstIdx (x :: xs) x = 0 := by
  simp [firstIdx]

theorem firstIdx_cons_ne {α : Type} [DecidableEq α] {x a : α} (xs : List α) (h : a ≠ x) :
    firstIdx (x :: xs) a = firstIdx xs a + 1 := by
  rw [firstIdx, if_neg (fun hc => h hc.symm)]

theorem pairwise_firstIdx_dedupFirstAux {α : Type} [DecidableEq α] :
    ∀ (l seen : List α),
      (dedupFirstAux seen l).Pairwise (fun a b => firstIdx l a < firstIdx l b) := by
  intro l
  induction l with
  | nil => intro seen; simp [dedupFirstAux]
  | cons x xs ih =>
    intro seen
    by_cases hx : x ∈ seen
    · rw [dedupFirstAux, if_pos hx]
      refine pairwiseImpMem ?_ (ih seen)
      intro a b ha hb hr
      rcases (mem_dedupFirstAux a xs seen).mp ha with ⟨_, hans⟩
      rcases (mem_dedupFirstAux b xs seen).mp hb with ⟨_, hbns⟩
      have hax : a ≠ x := fun hc => hans (by rw [hc]; exact hx)
      have hbx : b ≠ x := fun hc => hbns (by rw [hc]; exact hx)
      rw [firstIdx_cons_ne xs hax, firstIdx_cons_ne xs hbx]
      omega
    · rw [dedupFirstAux, if_neg hx]
      refine List.Pairwise.cons ?_ ?_
      · intro b hb
        rcases (mem_dedupFirstAux b xs (x :: seen)).mp hb with ⟨_, hbns⟩
        have hbx : b ≠ x := fun hc => hbns (by rw [hc]; exact List.mem_cons_self x seen)
        rw [firstIdx_cons_self, firstIdx_cons_ne xs hbx]
        omega
      · refine pairwiseImpMem ?_ (ih (x :: seen))
        intro a b ha hb hr
        rcases (mem_dedupFirstAux a xs (x :: seen)).mp ha with ⟨_, hans⟩
        rcases (mem_dedupFirstAux b xs (x :: seen)).mp hb with ⟨_, hbns⟩
        have hax : a ≠ x := fun hc => hans (by rw [hc]; exact List.mem_cons_self x seen)
        have hbx : b ≠ x := fun hc => hbns (by rw [hc]; exact List.mem_cons_self x seen)
        rw [firstIdx_cons_ne xs hax, firstIdx_cons_ne xs hbx]
        omega

/-! ### Block shapes and their one-step dispatch behavior -/

/-- A nonempty string: the character `c` followed by `u`.  Every
    nonempty string has this form, and the shape makes Python
    truthiness (`s != ""`) reduce definitionally. -/
def strC (c : Char) (u : String) : String := String.mk (c :: u.data)

/-- The fixed enumeration of block type tags `_process_elements`
    dispatches on. -/
def recognizedTypes : List String :=
  ["heading_1", "heading_2", "heading_3", "paragraph", "quote",
   "bulleted_list_item", "numbered_list_item", "toggle", "to_do", "pdf",
   "code", "embed", "image", "link_preview", "table_row", "table",
   "column_list", "column", "child_database", "divider", "child_page",
   "synced_block", "callout"]

/-- A toggle block with `has_children` set, id `tid` and payload
    `payload`. -/
def toggleBlockG (tid : String) (payload : J) : J :=
  J.ocons "type" (J.str "toggle") (J.ocons "id" (J.str tid)
    (J.ocons "has_children" (J.bool true) (J.ocons "toggle" payload J.onil)))

/-- Dispatch behavior of a toggle block that declares children: the
    subtree is flattened once by the toggle branch (4-space indent) and
    a second time by the generic `has_children` recursion (tab
    indent). -/
theorem procOne_toggle (recur : List J → Nat → Except PErr (String × List J))
    (f : Fetcher) (tid : String) (payload : J) (d : Nat) :
    procOne recur f (toggleBlockG tid payload) d =
      (payload.get "rich_text" J.nil >>= fun rt =>
       extractText rt >>= fun txt =>
       gatherLinks rt >>= fun ls =>
       recur (f (J.str tid)) (d + 1) >>= fun res =>
       (.ok ("- " ++ txt ++ "\n" ++ "\n" ++ indentLines "    " res.1 ++ "\n", ls ++ res.2)
         : Except PErr (String × List J))) >>= fun head =>
      (recur (f (J.str tid)) (d + 1) >>= fun res2 =>
       (.ok (indentLines "\t" res2.1 ++ "\n\n", res2.2)
         : Except PErr (String × List J))) >>= fun nestedPart =>
      .ok (head.1 ++ nestedPart.1, head.2 ++ nestedPart.2) := rfl

/-- A heading block of level tag `s` with payload `payload`. -/
def headingBlockG (s : String) (payload : J) : J :=
  J.ocons "type" (J.str s) (J.ocons s payload J.onil)

/-- Dispatch behavior of every heading block: all three levels render
    with the same single `"# "` marker followed by a blank line, and
    links are harvested from the rich text. -/
theorem procOne_heading (recur : List J → Nat → Except PErr (String × List J))
    (f : Fetcher) (s : String) (payload : J) (d : Nat)
    (hs : s = "heading_1" ∨ s = "heading_2" ∨ s = "heading_3") :
    procOne recur f (headingBlockG s payload) d =
      (payload.get "rich_text" J.nil >>= fun rt =>
       extractText rt >>= fun txt =>
       gatherLinks rt >>= fun ls =>
       (.ok ("# " ++ txt ++ "\n\n", ls) : Except PErr (String × List J))) >>= fun head =>
      .ok (head.1 ++ "", head.2 ++ []) := by
  rcases hs with rfl | rfl | rfl <;> rfl

/-- An image block with a nonempty external url and an empty caption. -/
def imageBlockG (c : Char) (u : String) : J :=
  J.ocons "type" (J.str "image")
    (J.ocons "image"
      (J.ocons "external" (J.ocons "url" (J.str (strC c u)) J.onil)
        (J.ocons "caption" J.nil J.onil)) J.onil)

/-- Dispatch behavior of an image block: the url is rendered inline and
    nothing is appended to the links. -/
theorem procOne_image (recur : List J → Nat → Except PErr (String × List J))
    (f : Fetcher) (c : Char) (u : String) (d : Nat) :
    procOne recur f (imageBlockG c u) d =
      .ok (("![Image](" ++ strC c u ++ ")\n") ++ "", []) := rfl

/-- A pdf block with a nonempty external url and a file url. -/
def pdfBlockG (c : Char) (u uf : String) : J :=
  J.ocons "type" (J.str "pdf")
    (J.ocons "pdf"
      (J.ocons "external" (J.ocons "url" (J.str (strC c u)) J.onil)
        (J.ocons "file" (J.ocons "url" (J.str uf) J.onil) J.onil)) J.onil)

/-- Dispatch behavior of a pdf block with both urls: the external url
    is preferred and appended to the links. -/
theorem procOne_pdf (recur : List J → Nat → Except PErr (String × List J))
    (f : Fetcher) (c : Char) (u uf : String) (d : Nat) :
    procOne recur f (pdfBlockG c u uf) d =
      .ok (("[PDF](" ++ strC c u ++ ")\n") ++ "", [J.str (strC c u)]) := rfl

/-- An embed block with url `um`. -/
def embedBlockG (um : String) : J :=
  J.ocons "type" (J.str "embed")
    (J.ocons "embed" (J.ocons "url" (J.str um) J.onil) J.onil)

/-- Dispatch behavior of an embed block: the url is rendered and
    appended to the links. -/
theorem procOne_embed (recur : List J → Nat → Except PErr (String × List J))
    (f : Fetcher) (um : String) (d : Nat) :
    procOne recur f (embedBlockG um) d =
      .ok (("[Embed](" ++ um ++ ")\n") ++ "", [J.str um]) := rfl

/-- A link-preview block with url `ul`. -/
def linkPreviewBlockG (ul : String) : J :=
  J.ocons "type" (J.str "link_preview")
    (J.ocons "link_preview" (J.ocons "url" (J.str ul) J.onil) J.onil)

/-- Dispatch behavior of a link-preview block: the url is rendered and
    its standardized form appended to the links. -/
theorem procOne_linkPreview (recur : List J → Nat → Except PErr (String × List J))
    (f : Fetcher) (c : Char) (u : String) (d : Nat) :
    procOne recur f (linkPreviewBlockG (strC c u)) d =
      .ok (("[Link](" ++ strC c u ++ ")\n") ++ "",
           [J.str (if strEndsWith (strC c u) "/" then strC c u else strC c u ++ "/")]) := rfl

/-- Dispatch behavior of any dict block tagged `child_page` at depth
    `d + 3` (that is, at any depth `≥ 3`): no branch fires, the generic
    recursion is skipped (its guard excludes `child_page`), and the
    block contributes no text and no links — in particular its
    constructed URL is not appended and `recur` is never consulted. -/
theorem procOne_childPage_deep (recur : List J → Nat → Except PErr (String × List J))
    (f : Fetcher) (e : J) (d : Nat)
    (hdict : e.isDict = true)
    (htype : lookupJ e "type" = some (J.str "child_page")) :
    procOne recur f e (d + 3) = .ok ("", []) := by
  unfold procOne
  rw [get_of_isDict e "type" J.null hdict, htype, get_of_isDict e "id" J.null hdict]
  rfl

/-- Dispatch behavior of any dict block whose type tag is outside the
    recognized enumeration and which does not carry a `has_children`
    key: no branch fires and the generic recursion is skipped, so the
    block contributes no text and no links and no error. -/
theorem procOne_unknown (recur : List J → Nat → Except PErr (String × List J))
    (f : Fetcher) (e : J) (t : String) (d : Nat)
    (hdict : e.isDict = true)
    (htype : lookupJ e "type" = some (J.str t))
    (hrec : t ∉ recognizedTypes)
    (hhc : lookupJ e "has_children" = none) :
    procOne recur f e d = .ok ("", []) := by
  simp only [recognizedTypes, List.mem_cons, List.not_mem_nil, or_false, not_or] at hrec
  unfold procOne
  rw [get_of_isDict e "type" J.null hdict, htype, get_of_isDict e "id" J.null hdict]
  simp only [Option.getD_some, exceptBind_ok, J.str.injEq, hrec, or_self, if_false,
    ite_false, ite_true, pyIn_of_isDict e "has_children" hdict, hhc, Option.isSome_none,
    Bool.false_eq_true, List.append_nil]
  rfl

/-! ### Concrete blocks used in counterexamples and witnesses -/

/-- A rich-text payload holding the single plain-text run `"T"`. -/
def payloadT : J := jobj [("rich_text", jarr [jobj [("plain_text", J.str "T")]])]

/-- A paragraph block rendering the single line `"P"`. -/
def paraP : J := jobj [("type", J.str "paragraph"), ("id", J.str "p1"),
  ("paragraph", jobj [("rich_text", jarr [jobj [("plain_text", J.str "P")]])])]

/-- A toggle block titled `"T"` with children under id `"t1"`. -/
def toggleT : J := toggleBlockG "t1" payloadT

/-- A fetcher serving the single paragraph `paraP` as the children of
    `"t1"` and nothing elsewhere. -/
def toggleFetcher : Fetcher := fun i => if i = J.str "t1" then [paraP] else []

/-- A child-page block with id `"ab-cd"`, title `"Sub"` and children. -/
def childPageB : J := jobj [("type", J.str "child_page"), ("id", J.str "ab-cd"),
  ("has_children", J.bool true), ("child_page", jobj [("title", J.str "Sub")])]

/-- A block tagged `pdf` whose `pdf` payload field is missing. -/
def pdfNoPayloadB : J := jobj [("type", J.str "pdf")]

/-- A callout whose emoji-typed icon lacks the `emoji` value. -/
def calloutBadB : J := jobj [("type", J.str "callout"),
  ("callout", jobj [("icon", jobj [("type", J.str "emoji")])])]

/-- A pdf block whose payload has neither an external nor a file url. -/
def pdfEmptyB : J := jobj [("type", J.str "pdf"), ("pdf", jobj [])]

/-- A block of an unrecognized type with no `has_children` key. -/
def unkB : J := jobj [("type", J.str "unsupported_widget"), ("id", J.str "u1")]

/-! ### The claims -/

/-- C1, counterexample.  The claim says a toggle (or column-list,
    column, synced-block) that declares `has_children` and was already
    expanded by its type-specific branch receives no additional generic
    recursive flatten, so no block content appears twice.  In the code
    the generic recursion at the end of the loop body excludes only
    `child_page`, so the toggle's subtree (the single paragraph line
    `"P"` served by `toggleFetcher`) is fetched and rendered a second
    time: the output text is `"- T\n\n    P\n\tP"`, in which the
    subtree line `P` occurs exactly twice. -/
theorem claim_C1_counterexample :
    processElements toggleFetcher 2 [toggleT] 0 = .ok ("- T\n\n    P\n\tP", []) ∧
    strCount "- T\n\n    P\n\tP" "P" = 2 := ⟨rfl, rfl⟩

/-- C1, amended.  The generic recursion condition excludes only
    child-page blocks, so a toggle that declares `has_children` is
    expanded twice: once by the toggle branch (its subtree text
    4-space-indented) and once by the generic recursion (the same
    subtree text tab-indented), and the subtree's links are merged
    twice as well.  Stated for an arbitrary fetcher, depth, toggle
    payload and subtree flatten result. -/
theorem claim_C1_amended (f : Fetcher) (fuel d : Nat) (tid : String)
    (payload rt : J) (txt : String) (ls : List J) (subT : String) (subL : List J)
    (hrt : payload.get "rich_text" J.nil = .ok rt)
    (hext : extractText rt = .ok txt)
    (hgl : gatherLinks rt = .ok ls)
    (hsub : processElements f fuel (f (J.str tid)) (d + 1) = .ok (subT, subL)) :
    procE f (fuel + 1) [toggleBlockG tid payload] d =
      .ok ("- " ++ txt ++ "\n" ++ "\n" ++ indentLines "    " subT ++ "\n"
            ++ (indentLines "\t" subT ++ "\n\n"),
           (ls ++ subL) ++ subL) := by
  rw [procE_cons, procOne_toggle, hrt]
  simp only [exceptBind_ok, hext, hgl, hsub, procE_nil, strAppend_empty, List.append_nil]

/-- C1, witness for the amended theorem at the concrete toggle tree of
    the counterexample. -/
theorem claim_C1_witness :
    procE toggleFetcher 2 [toggleBlockG "t1" payloadT] 0 =
      .ok ("- " ++ "T" ++ "\n" ++ "\n" ++ indentLines "    " "P" ++ "\n"
            ++ (indentLines "\t" "P" ++ "\n\n"),
           (([] : List J) ++ []) ++ []) :=
  claim_C1_amended toggleFetcher 1 0 "t1" payloadT
    (jarr [jobj [("plain_text", J.str "T")]]) "T" [] "P" [] rfl rfl rfl rfl

/-- C2, counterexample.  The claim says a `child_page` block processed
    at depth ≥ 3 still appends its constructed URL
    (`https://www.notion.so/abcd` for id `"ab-cd"`) to the links.  In
    the code the whole child-page branch is guarded by `depth < 3`, so
    at depth 3 the block contributes nothing at all: the result is
    `("", [])` and in particular the links list is empty. -/
theorem claim_C2_counterexample :
    processElements (fun _ => [paraP]) 5 [childPageB] 3 = .ok ("", []) := rfl

/-- C2, amended.  At depth ≥ 3 (written `d + 3`) a dict block tagged
    `child_page` triggers no further fetcher calls — the result below
    is the same for every fetcher `f` — and contributes neither text
    nor its constructed URL: processing it alone yields `("", [])`, and
    in a list it is skipped, processing continuing with its siblings. -/
theorem claim_C2_amended (f : Fetcher) (fuel d : Nat) (e : J) (rest : List J)
    (hdict : e.isDict = true)
    (htype : lookupJ e "type" = some (J.str "child_page")) :
    procE f (fuel + 1) (e :: rest) (d + 3) = procE f fuel rest (d + 3) ∧
    processElements f (fuel + 1) [e] (d + 3) = .ok ("", []) := by
  have h1 := procOne_childPage_deep (fun es2 d2 => processElements f fuel es2 d2)
    f e d hdict htype
  constructor
  · rw [procE_cons, h1, exceptBind_ok]
    cases hx : procE f fuel rest (d + 3) with
    | ok v => rfl
    | error er => rfl
  · unfold processElements
    rw [procE_cons, h1, exceptBind_ok, procE_nil, exceptBind_ok]
    rfl

/-- C2, witness for the amended theorem at the concrete child-page
    block `childPageB`, depth 3, with a fetcher that would serve a
    paragraph for every id. -/
theorem claim_C2_witness :
    (procE (fun _ => [paraP]) (4 + 1) (childPageB :: [paraP]) (0 + 3) =
      procE (fun _ => [paraP]) 4 [paraP] (0 + 3)) ∧
    processElements (fun _ => [paraP]) (4 + 1) [childPageB] (0 + 3) = .ok ("", []) :=
  claim_C2_amended (fun _ => [paraP]) 4 0 childPageB [paraP] rfl rfl

/-- C3, counterexample.  The claim says `_process_elements` never
    raises for a block of a recognized type whose payload field is
    missing, naming a block tagged `pdf` with no `pdf` payload as an
    example.  In the code that block evaluates `element["pdf"]`, which
    raises `KeyError`. -/
theorem claim_C3_counterexample :
    processElements (fun _ => []) 1 [pdfNoPayloadB] 0 = .error (.keyError "pdf") := rfl

/-- C3, amended.  `_process_elements` is not total on malformed
    payloads: a recognized-type block missing its payload field (a
    `pdf` block with no `pdf` key) raises `KeyError`, and a callout
    whose emoji-typed icon lacks an `emoji` value raises `TypeError`
    (`None + " "`); in both cases the error aborts processing, so the
    following sibling paragraph is never rendered. -/
theorem claim_C3_amended :
    processElements (fun _ => []) 2 [pdfNoPayloadB, paraP] 0 = .error (.keyError "pdf") ∧
    processElements (fun _ => []) 2 [calloutBadB, paraP] 0 = .error .typeError := ⟨rfl, rfl⟩

/-- C10: a pdf block whose payload has neither an external nor a file
    url does not raise; the resolved url is Python `None`, the rendered
    line is `[PDF](None)`, and the `None` value itself is appended to
    the links list and survives deduplication, so the public links
    output contains a non-URL entry. -/
theorem claim_C10 :
    processElements (fun _ => []) 1 [pdfEmptyB] 0 = .ok ("[PDF](None)", [J.null]) := rfl

/-- C4: the links list returned by `_process_elements` is the
    first-seen deduplication of the url stream accumulated by its loop:
    it contains no duplicates, has exactly the urls of the stream, and
    lists them sorted by first occurrence in the stream (document
    traversal encounter order).  Re-running the flatten on an unchanged
    tree is re-applying the same pure function to the same arguments,
    so the links order of a second run is literally the same value. -/
theorem claim_C4 (f : Fetcher) (fuel depth : Nat) (es : List J) (t : String) (us : List J)
    (h : procE f fuel es depth = .ok (t, us)) :
    processElements f fuel es depth = .ok (pyStrip t, dedupFirst us) ∧
    (dedupFirst us).Nodup ∧
    (∀ x, x ∈ dedupFirst us ↔ x ∈ us) ∧
    (dedupFirst us).Pairwise (fun a b => firstIdx us a < firstIdx us b) := by
  refine ⟨?_, nodup_dedupFirstAux us [], ?_, pairwise_firstIdx_dedupFirstAux us []⟩
  · unfold processElements
    rw [h]
    rfl
  · intro x
    rw [dedupFirst, mem_dedupFirstAux x us []]
    simp

/-- C4, witness: two embed blocks with the same url produce the raw
    url stream `[m, m]`; the returned links are its first-seen dedup. -/
theorem claim_C4_witness :
    processElements (fun _ => []) 2 [embedBlockG "m", embedBlockG "m"] 0 =
      .ok (pyStrip "[Embed](m)\n[Embed](m)\n", dedupFirst [J.str "m", J.str "m"]) ∧
    (dedupFirst [J.str "m", J.str "m"]).Nodup ∧
    (J.str "m" ∈ dedupFirst [J.str "m", J.str "m"] ↔ J.str "m" ∈ [J.str "m", J.str "m"]) ∧
    (dedupFirst [J.str "m", J.str "m"]).Pairwise
      (fun a b => firstIdx [J.str "m", J.str "m"] a < firstIdx [J.str "m", J.str "m"] b) :=
  ⟨(claim_C4 (fun _ => []) 2 0 [embedBlockG "m", embedBlockG "m"]
      "[Embed](m)\n[Embed](m)\n" [J.str "m", J.str "m"] rfl).1,
   (claim_C4 (fun _ => []) 2 0 [embedBlockG "m", embedBlockG "m"]
      "[Embed](m)\n[Embed](m)\n" [J.str "m", J.str "m"] rfl).2.1,
   (claim_C4 (fun _ => []) 2 0 [embedBlockG "m", embedBlockG "m"]
      "[Embed](m)\n[Embed](m)\n" [J.str "m", J.str "m"] rfl).2.2.1 (J.str "m"),
   (claim_C4 (fun _ => []) 2 0 [embedBlockG "m", embedBlockG "m"]
      "[Embed](m)\n[Embed](m)\n" [J.str "m", J.str "m"] rfl).2.2.2⟩

/-- C5: `_gather_links` prefers the explicit `href` of a run (any
    nonempty string `strC c u`) over the annotation-level url; only
    when `href` is absent is the annotation url used; every harvested
    url is standardized by appending a trailing `/` when absent; and
    the concrete run with `href="https://x"` and annotation url
    `"https://y"` harvests exactly `"https://x/"`. -/
theorem claim_C5 (c : Char) (u : String) (c2 : Char) (u2 : String) (c3 : Char) (u3 : String) :
    gatherLinks (jarr [jobj [("href", J.str (strC c u)),
        ("annotations", jobj [("url", J.str (strC c2 u2))])]]) =
      .ok [J.str (if strEndsWith (strC c u) "/" then strC c u else strC c u ++ "/")] ∧
    gatherLinks (jarr [jobj [("annotations", jobj [("url", J.str (strC c2 u2))])]]) =
      .ok [J.str (if strEndsWith (strC c2 u2) "/" then strC c2 u2 else strC c2 u2 ++ "/")] ∧
    standardizeUrl (J.str (strC c3 u3)) =
      .ok (J.str (if strEndsWith (strC c3 u3) "/" then strC c3 u3 else strC c3 u3 ++ "/")) ∧
    gatherLinks (jarr [jobj [("href", J.str "https://x"),
        ("annotations", jobj [("url", J.str "https://y")])]]) =
      .ok [J.str "https://x/"] := ⟨rfl, rfl, rfl, rfl⟩

/-- C6, counterexample.  The claim says a heading renders with a
    marker matching its level (two `#` for level 2).  In the code all
    three heading branches render `f"# {...}"`, so a level-2 heading
    titled `"T"` renders as `"# T"`, which does not contain `"##"`. -/
theorem claim_C6_counterexample :
    processElements (fun _ => []) 1 [headingBlockG "heading_2" payloadT] 0 =
      .ok ("# T", []) ∧
    strContains "# T" "##" = false := ⟨rfl, rfl⟩

/-- C6, amended.  Every heading block of level 1, 2 or 3 renders with
    the same single `"# "` marker followed by the heading text and a
    blank line, and the links harvested from the heading's rich text
    are contributed to the result. -/
theorem claim_C6_amended (f : Fetcher) (fuel d : Nat) (s : String)
    (payload rt : J) (txt : String) (ls : List J)
    (hs : s = "heading_1" ∨ s = "heading_2" ∨ s = "heading_3")
    (hrt : payload.get "rich_text" J.nil = .ok rt)
    (hext : extractText rt = .ok txt)
    (hgl : gatherLinks rt = .ok ls) :
    procE f (fuel + 1) [headingBlockG s payload] d = .ok ("# " ++ txt ++ "\n\n", ls) := by
  rw [procE_cons, procOne_heading _ _ _ _ _ hs, hrt]
  simp only [exceptBind_ok, hext, hgl, procE_nil, strAppend_empty, List.append_nil]

/-- C6, witness for the amended theorem at a concrete level-3 heading. -/
theorem claim_C6_witness :
    procE (fun _ => []) 1 [headingBlockG "heading_3" payloadT] 0 =
      .ok ("# " ++ "T" ++ "\n\n", []) :=
  claim_C6_amended (fun _ => []) 0 0 "heading_3" payloadT
    (jarr [jobj [("plain_text", J.str "T")]]) "T" [] (by simp) rfl rfl rfl

/-- C7: `_retrieve_page_elements` never propagates an exception — when
    any pagination round-trip raises (the loop result is the error
    case), the function returns the empty list; and flattening an empty
    block list (a tree whose root fetch failed) returns the empty
    result `("", [])` successfully for every fetcher, fuel and depth. -/
theorem claim_C7 (oracle : Nat → FetchResp) (fuel : Nat)
    (h : retrieveLoop oracle fuel 0 [] = some (.error ())) :
    retrievePageElements oracle fuel = some [] ∧
    (∀ (g : Fetcher) (n d : Nat), processElements g n [] d = .ok ("", [])) := by
  constructor
  · unfold retrievePageElements
    rw [h]
    rfl
  · intro g n d
    unfold processElements
    rw [procE_nil]
    rfl

/-- C7, witness: an oracle whose very first round-trip raises. -/
theorem claim_C7_witness :
    retrievePageElements (fun _ => FetchResp.err) 1 = some [] ∧
    processElements (fun _ => []) 1 [] 0 = .ok ("", []) :=
  ⟨(claim_C7 (fun _ => FetchResp.err) 1 rfl).1,
   (claim_C7 (fun _ => FetchResp.err) 1 rfl).2 (fun _ => []) 1 0⟩

/-- C8: a dict block whose type tag is outside the recognized
    enumeration and which carries no `has_children` key contributes
    empty text and no links, does not raise, and processing continues
    with its siblings unchanged. -/
theorem claim_C8 (f : Fetcher) (fuel depth : Nat) (t : String) (e : J) (rest : List J)
    (hdict : e.isDict = true)
    (htype : lookupJ e "type" = some (J.str t))
    (hrec : t ∉ recognizedTypes)
    (hhc : lookupJ e "has_children" = none) :
    procE f (fuel + 1) (e :: rest) depth = procE f fuel rest depth ∧
    processElements f (fuel + 1) [e] depth = .ok ("", []) := by
  have h1 := procOne_unknown (fun es2 d2 => processElements f fuel es2 d2)
    f e t depth hdict htype hrec hhc
  constructor
  · rw [procE_cons, h1, exceptBind_ok]
    cases hx : procE f fuel rest depth with
    | ok v => rfl
    | error er => rfl
  · unfold processElements
    rw [procE_cons, h1, exceptBind_ok, procE_nil, exceptBind_ok]
    rfl

/-- C8, witness at the concrete block of type `unsupported_widget`. -/
theorem claim_C8_witness :
    (procE (fun _ => [paraP]) (1 + 1) (unkB :: [paraP]) 0 =
      procE (fun _ => [paraP]) 1 [paraP] 0) ∧
    processElements (fun _ => [paraP]) (1 + 1) [unkB] 0 = .ok ("", []) :=
  claim_C8 (fun _ => [paraP]) 1 0 "unsupported_widget" unkB [paraP]
    rfl rfl (by decide) rfl

/-- C9: an image block renders its url inline (with the placeholder
    word `Image` when the caption is empty) but appends nothing to the
    links, while pdf blocks (external url preferred over the file url),
    embed blocks, and link-preview blocks (standardized) always append
    their resource url to the links. -/
theorem claim_C9 (f : Fetcher) (fuel d : Nat) (c : Char) (u uf um : String)
    (c2 : Char) (u2 : String) :
    procE f (fuel + 1) [imageBlockG c u] d =
      .ok ("![Image](" ++ strC c u ++ ")\n", []) ∧
    procE f (fuel + 1) [pdfBlockG c u uf] d =
      .ok ("[PDF](" ++ strC c u ++ ")\n", [J.str (strC c u)]) ∧
    procE f (fuel + 1) [embedBlockG um] d =
      .ok ("[Embed](" ++ um ++ ")\n", [J.str um]) ∧
    procE f (fuel + 1) [linkPreviewBlockG (strC c2 u2)] d =
      .ok ("[Link](" ++ strC c2 u2 ++ ")\n",
           [J.str (if strEndsWith (strC c2 u2) "/" then strC c2 u2 else strC c2 u2 ++ "/")]) := by
  refine ⟨?_, ?_, ?_, ?_⟩
  · rw [procE_cons, procOne_image, exceptBind_ok, procE_nil, exceptBind_ok]
    simp only [strAppend_empty, List.append_nil]
  · rw [procE_cons, procOne_pdf, exceptBind_ok, procE_nil, exceptBind_ok]
    simp only [strAppend_empty, List.append_nil]
  · rw [procE_cons, procOne_embed, exceptBind_ok, procE_nil, exceptBind_ok]
    simp only [strAppend_empty, List.append_nil]
  · rw [procE_cons, procOne_linkPreview, exceptBind_ok, procE_nil, exceptBind_ok]
    simp only [strAppend_empty, List.append_nil]

